import Mathlib

/-!
Verification of the mm.c segregated-list allocator.

Shallow embedding of `src/mm.c` (a boundary-tag, segregated-free-list
dynamic storage allocator).  Memory is modelled as a map from byte
addresses to 64-bit words: every load and store in `mm.c` is an 8-byte
`size_t` access at an 8-aligned address, and `put`/`get` below model
exactly those accesses.  Pointers are byte addresses (`Nat`); the null
pointer is address `0`.  `size_t` arithmetic that can wrap is taken
modulo `W = 2^64`.  The arena-growth provider (`mem_sbrk`, which lives in
the external `memlib`, out of scope per the spec) is modelled as a bump
of the break pointer guarded by a success flag.
-/

namespace MM

/-- `size_t` modulus: words are 64 bits. -/
def W : Nat := 2 ^ 64

/-- Word-addressed memory: byte address of an 8-aligned word ↦ stored word. -/
abbrev Mem := Nat → Nat

/-- `put(bp, val)` from mm.c: store a word at address `bp`. -/
def put (m : Mem) (a v : Nat) : Mem := fun x => if x = a then v else m x

/-- `get(bp)` from mm.c: load the word at address `bp`. -/
def get (m : Mem) (a : Nat) : Nat := m a

/-- mm.c `align`: rounds up to the nearest multiple of ALIGNMENT (16),
in `size_t` arithmetic (the `x + 15` may wrap modulo `2^64`). -/
def align (x : Nat) : Nat := 16 * (((x + 15) % W) / 16)

/-- mm.c `pack(size, alloc) = size | alloc`. -/
def pack (size alloc : Nat) : Nat := size ||| alloc

/-- `word & ~0xf` — the size field of a header/footer word
(`~0xf` on a 64-bit `size_t` is `2^64 - 16`). -/
def size_of_word (w : Nat) : Nat := w &&& (W - 16)

/-- `word & 0x1` — the allocated flag of a header/footer word. -/
def alloc_of_word (w : Nat) : Nat := w &&& 1

/-- mm.c `get_size(bp) = get(bp) & ~0xf`. -/
def get_size (m : Mem) (a : Nat) : Nat := size_of_word (get m a)

/-- mm.c `get_alloc(bp) = get(bp) & 0x1`. -/
def get_alloc (m : Mem) (a : Nat) : Nat := alloc_of_word (get m a)

/-- mm.c `p_to_header(bp) = (size_t*)bp - 1`. -/
def p_to_header (bp : Nat) : Nat := bp - 8

/-- mm.c `p_to_footer(bp) = bp + get_size(p_to_header(bp)) - 16`. -/
def p_to_footer (m : Mem) (bp : Nat) : Nat := bp + get_size m (p_to_header bp) - 16

/-- mm.c `prev_bp(bp) = bp - get_size(bp - 16)`. -/
def prev_bp (m : Mem) (bp : Nat) : Nat := bp - get_size m (bp - 16)

/-- mm.c `next_bp(bp) = bp + get_size(p_to_header(bp))`. -/
def next_bp (m : Mem) (bp : Nat) : Nat := bp + get_size m (p_to_header bp)

/-- mm.c `prev_freebp(bp) = bp` (address of the previous-in-list link word). -/
def prev_freebp (bp : Nat) : Nat := bp

/-- mm.c `next_freebp(bp) = bp + 8` (address of the next-in-list link word). -/
def next_freebp (bp : Nat) : Nat := bp + 8

/-- mm.c `prev_listbp(bp) = *(size_t**)bp`. -/
def prev_listbp (m : Mem) (bp : Nat) : Nat := get m (prev_freebp bp)

/-- mm.c `next_listbp(bp) = *(size_t**)(bp + 8)`. -/
def next_listbp (m : Mem) (bp : Nat) : Nat := get m (next_freebp bp)

/-- mm.c `search_seg_list`: size-class index of a block size.  The numeric
thresholds are the `seg_size_classN` constants 32, 64, ..., 131072. -/
def search_seg_list (size : Nat) : Nat :=
  if size < 32 then 0
  else if 32 ≤ size ∧ size < 64 then 1
  else if 64 ≤ size ∧ size < 128 then 2
  else if 128 ≤ size ∧ size < 256 then 3
  else if 256 ≤ size ∧ size < 512 then 4
  else if 512 ≤ size ∧ size < 1024 then 5
  else if 1024 ≤ size ∧ size < 2048 then 6
  else if 2048 ≤ size ∧ size < 4096 then 7
  else if 4096 ≤ size ∧ size < 8192 then 8
  else if 8192 ≤ size ∧ size < 16384 then 9
  else if 16384 ≤ size ∧ size < 32768 then 10
  else if 32768 ≤ size ∧ size < 65536 then 11
  else if 65536 ≤ size ∧ size < 131072 then 12
  else 13

/-- Allocator state: the arena memory, the 14 segregated list heads
(`seg_list`, index ↦ head payload pointer, null = 0), and the current
break (end of arena, maintained by the growth provider). -/
structure AState where
  mem : Mem
  seg : Nat → Nat
  brk : Nat

/-- Update one segregated-list head. -/
def setSeg (f : Nat → Nat) (i v : Nat) : Nat → Nat := fun j => if j = i then v else f j

/-- mm.c `delete_list_blcok` (name kept from the source): unlink `bp` from
its size class's doubly-linked list.  Statements are sequenced exactly as
in the source; each read re-reads the memory current at that statement. -/
def delete_list_blcok (s : AState) (bp : Nat) : AState :=
  let size := get_size s.mem (p_to_header bp)
  let seg_index := search_seg_list size
  if prev_listbp s.mem bp = 0 then
    if next_listbp s.mem bp ≠ 0 then
      let m1 := put s.mem (prev_freebp (next_listbp s.mem bp)) 0
      { s with mem := m1, seg := setSeg s.seg seg_index (next_listbp m1 bp) }
    else
      { s with seg := setSeg s.seg seg_index 0 }
  else
    if next_listbp s.mem bp ≠ 0 then
      let m1 := put s.mem (prev_freebp (next_listbp s.mem bp)) (prev_listbp s.mem bp)
      let m2 := put m1 (next_freebp (prev_listbp m1 bp)) (next_listbp m1 bp)
      { s with mem := m2 }
    else
      { s with mem := put s.mem (next_freebp (prev_listbp s.mem bp)) 0 }

/-- mm.c `add_list_block`: push `bp` as the new head of the size class of
`size`. -/
def add_list_block (s : AState) (bp size : Nat) : AState :=
  let seg_index := search_seg_list size
  let curr_head_ptr := s.seg seg_index
  if curr_head_ptr ≠ 0 then
    { s with
      seg := setSeg s.seg seg_index bp,
      mem := put (put (put s.mem (prev_freebp bp) 0) (next_freebp bp) curr_head_ptr)
                 (prev_freebp curr_head_ptr) bp }
  else
    { s with
      seg := setSeg s.seg seg_index bp,
      mem := put (put s.mem (prev_freebp bp) 0) (next_freebp bp) 0 }

/-- `size_t` subtraction `x - y` (wraps modulo `2^64`); used where mm.c
subtracts sizes.  Faithful for operands `< W`. -/
def csub (x y : Nat) : Nat := (x + W - y % W) % W

/-- mm.c `place(bp, asize)`: allocate the free block `bp`.  In the no-split
branch the source reads the local variable `next_block` before ever
assigning it (C undefined behaviour); the indeterminate contents of that
stack slot are modelled by the explicit parameter `junk`.  Returns the
new state and the returned pointer (`bp`). -/
def place (s : AState) (bp asize junk : Nat) : AState × Nat :=
  let s1 := delete_list_blcok s bp
  let csize := get_size s1.mem (p_to_header bp)
  if 32 ≤ csub csize asize then
    let m1 := put s1.mem (p_to_header bp) (pack asize 1)
    let m2 := put m1 (p_to_footer m1 bp) (pack asize 1)
    let m3 := put m2 (p_to_header (next_bp m2 bp)) (pack (csub csize asize) 0)
    let m4 := put m3 (p_to_footer m3 (next_bp m3 bp)) (pack (csub csize asize) 0)
    let s2 := add_list_block { s1 with mem := m4 } (next_bp m4 bp) (csub csize asize)
    (s2, bp)
  else
    let m1 := put s1.mem (p_to_header bp) (pack csize 1)
    let m2 := put m1 (p_to_footer m1 bp) (pack csize 1)
    let m3 :=
      if get_alloc m2 (p_to_header junk) = 0 then
        put m2 (p_to_footer m2 junk) (get m2 (p_to_header junk))
      else m2
    ({ s1 with mem := m3 }, bp)

/-- mm.c `coalesce(bp)`: merge with free physical neighbours, re-index,
and return the resulting block's payload pointer. -/
def coalesce (s : AState) (bp : Nat) : AState × Nat :=
  let prev_alloc := get_alloc s.mem (p_to_header (prev_bp s.mem bp))
  let next_alloc := get_alloc s.mem (p_to_header (next_bp s.mem bp))
  let size := get_size s.mem (p_to_header bp)
  if prev_alloc ≠ 0 ∧ next_alloc ≠ 0 then
    (s, bp)
  else if prev_alloc = 0 ∧ next_alloc ≠ 0 then
    let size := size + get_size s.mem (p_to_header (prev_bp s.mem bp))
    let s1 := delete_list_blcok s bp
    let s2 := delete_list_blcok s1 (prev_bp s1.mem bp)
    let m1 := put s2.mem (p_to_footer s2.mem bp) (pack size 0)
    let m2 := put m1 (p_to_header (prev_bp m1 bp)) (pack size 0)
    let bp2 := prev_bp m2 bp
    let s3 := add_list_block { s2 with mem := m2 } bp2 size
    (s3, bp2)
  else if prev_alloc ≠ 0 ∧ next_alloc = 0 then
    let size := size + get_size s.mem (p_to_header (next_bp s.mem bp))
    let s1 := delete_list_blcok s bp
    let s2 := delete_list_blcok s1 (next_bp s1.mem bp)
    let m1 := put s2.mem (p_to_header bp) (pack size 0)
    let m2 := put m1 (p_to_footer m1 bp) (pack size 0)
    let s3 := add_list_block { s2 with mem := m2 } bp size
    (s3, bp)
  else
    let size := size + get_size s.mem (p_to_footer s.mem (next_bp s.mem bp))
             + get_size s.mem (p_to_header (prev_bp s.mem bp))
    let s1 := delete_list_blcok s bp
    let s2 := delete_list_blcok s1 (next_bp s1.mem bp)
    let s3 := delete_list_blcok s2 (prev_bp s2.mem bp)
    let m1 := put s3.mem (p_to_footer s3.mem (next_bp s3.mem bp)) (pack size 0)
    let m2 := put m1 (p_to_header (prev_bp m1 bp)) (pack size 0)
    let bp2 := prev_bp m2 bp
    let s4 := add_list_block { s3 with mem := m2 } bp2 size
    (s4, bp2)

/-- The state built by mm.c `extend_heap` just before its final
`coalesce` call: the break has been bumped by `asize` (the return value
of `mem_sbrk` is the old break `s.brk`); the new region was pushed onto
its free list; the new block's header/footer and the fresh epilogue
header were written. -/
def extendState (s : AState) (asize : Nat) : AState :=
  let bp := s.brk
  let s0 : AState := { s with brk := s.brk + asize }
  let s1 := add_list_block s0 bp asize
  let m1 := put s1.mem (p_to_header bp) (pack asize 0)
  let m2 := put m1 (p_to_footer m1 bp) (pack asize 0)
  let m3 := put m2 (p_to_header (next_bp m2 bp)) (pack 0 1)
  { s1 with mem := m3 }

/-- mm.c `extend_heap(wsize)`: grow the arena.  `mem_sbrk` (external
growth provider) is modelled as returning the old break and bumping it;
`ok = false` models provider failure (`(void *)-1`), in which case the
function returns NULL (`none`). -/
def extend_heap (s : AState) (wsize : Nat) (ok : Bool) : Option (AState × Nat) :=
  let asize := align wsize
  if !ok then none
  else some (coalesce (extendState s asize) s.brk)

/-- mm.c `mm_init`: clear the list heads, lay out the prologue
(header/footer words `pack(16,1)` at `base+8`, `base+16`), then extend by
4096.  `m0` is the arbitrary initial contents of the (unwritten) arena. -/
def mm_init (m0 : Mem) (base : Nat) (ok1 ok2 : Bool) : Option AState :=
  if !ok1 then none
  else
    let s0 : AState := { mem := m0, seg := fun _ => 0, brk := base + 32 }
    let m1 := put s0.mem base 0
    let m2 := put m1 (base + 8) (pack 16 1)
    let m3 := put m2 (base + 16) (pack 16 1)
    match extend_heap { s0 with mem := m3 } 4096 ok2 with
    | none => none
    | some (s1, _) => some s1

/-- Result of a `malloc` call: a returned payload pointer with the new
state, a NULL return, or undefined behaviour (the source dereferences
`p_to_header(NULL)`). -/
inductive MRes where
  | ok (bp : Nat) (s : AState)
  | nullret (s : AState)
  | ub

/-- The rounded request size `asize` computed at mm.c lines 370–376:
requests of at most `2*HEADER_SIZE = 16` bytes get the minimum block size
32, larger ones get `align(size + 16)`. -/
def req_asize (size : Nat) : Nat := if size ≤ 16 then 32 else align (size + 16)

/-- The bounded first-fit scan of one class list (the `for` loop at mm.c
lines 387–396): at most `MIN_BLOCK_SIZE = 32` candidates, stop at NULL,
take the first block whose size is ≥ `asize`. -/
def scan_blocks (m : Mem) (asize : Nat) : Nat → Nat → Option Nat
  | _, 0 => none
  | bp, fuel + 1 =>
    if bp = 0 then none
    else if asize ≤ get_size m (p_to_header bp) then some bp
    else scan_blocks m asize (next_listbp m bp) fuel

/-- The escalation loop at mm.c lines 404–407:
`while (seg_index < 14 && bp == NULL) { bp = seg_list[seg_index]; seg_index++; }`.
Fuel-indexed transcription; called with fuel 14, enough for any start. -/
def find_head (seg : Nat → Nat) : Nat → Nat → Nat
  | _, 0 => 0
  | idx, fuel + 1 =>
    if idx < 14 then
      if seg idx ≠ 0 then seg idx else find_head seg (idx + 1) fuel
    else 0

/-- mm.c `malloc`.  `ok` is the growth provider's disposition should
`extend_heap` be called; `junk` is the indeterminate value of `place`'s
uninitialized `next_block` local.  When every list is empty and growth
fails, the source passes NULL to `place`, which dereferences
`p_to_header(NULL)`: that path is `MRes.ub`. -/
def mm_malloc (s : AState) (size : Nat) (ok : Bool) (junk : Nat) : MRes :=
  if size = 0 then .nullret s
  else
    let asize := req_asize size
    let seg_index := search_seg_list asize
    let extendsize := max asize 4096
    match (if seg_index ≠ 14 then scan_blocks s.mem asize (s.seg seg_index) 32 else none) with
    | some bp => .ok bp (place s bp asize junk).1
    | none =>
      let bp := find_head s.seg (seg_index + 1) 14
      if bp ≠ 0 then .ok bp (place s bp asize junk).1
      else
        match extend_heap s extendsize ok with
        | none => .ub
        | some (s1, bp1) => .ok bp1 (place s1 bp1 asize junk).1

/-- mm.c `free(ptr)`.  Note line 426 of the source: `size = get(p_to_header(ptr))`
reads the *raw* header word (allocated bit included), not `get_size`. -/
def mm_free (s : AState) (ptr : Nat) : AState :=
  if ptr = 0 then s
  else
    let size := get s.mem (p_to_header ptr)
    let m1 := put s.mem (p_to_header ptr) (pack size 0)
    let m2 := put m1 (p_to_footer m1 ptr) (pack size 0)
    let s1 := add_list_block { s with mem := m2 } ptr size
    (coalesce s1 ptr).1

/-- The semantics of `memmove(dst, src, count·8)` on the word-addressed
memory: as if through a temporary buffer, so word `dst + 8k` receives the
*original* word `src + 8k` for every `k < count`.  This renders mm.c's
byte-level `memmove` at word granularity, faithful whenever the copy
length is a multiple of 8 and both pointers are 8-aligned — which holds
in every run evaluated here (all heap payloads are 8-aligned and the
copy lengths are whole words). -/
def movewords (m : Mem) (dst src : Nat) : Nat → Mem
  | 0 => m
  | k + 1 => put (movewords m dst src k) (dst + 8 * k) (m (src + 8 * k))

/-- mm.c `realloc` (lines 440–463), end to end: NULL `oldptr` behaves as
`malloc`; `size == 0` behaves as `free` returning NULL; otherwise
`malloc(size)`, then
`copysize = min(size, get_size(p_to_header(oldptr)) - HEADER_SIZE)`
(`HEADER_SIZE = 8`, `size_t` subtraction), `memmove(newptr, oldptr,
copysize)` modelled by `movewords` over `copysize / 8` whole words, and
finally `free(oldptr)`.  The source never checks `newptr` for NULL before
the `memmove`; that path is unreachable here because `mm_malloc` with a
nonzero size never returns `nullret` (its growth-failure path is already
`ub`, claim C2), so the `nullret` arm maps to `ub` (copying through NULL
would be undefined behaviour). -/
def mm_realloc (s : AState) (oldptr size : Nat) (ok : Bool) (junk : Nat) : MRes :=
  if oldptr = 0 then mm_malloc s size ok junk
  else if size = 0 then .nullret (mm_free s oldptr)
  else
    match mm_malloc s size ok junk with
    | .ub => .ub
    | .nullret _ => .ub
    | .ok newptr s1 =>
      let copysize := min size (csub (get_size s1.mem (p_to_header oldptr)) 8)
      let m2 := movewords s1.mem newptr oldptr (copysize / 8)
      let s2 := mm_free { s1 with mem := m2 } oldptr
      .ok newptr s2

/-- The first `fuel` nodes of a free list, starting at `bp` and following
the next-in-list links (stopping at NULL). -/
def listNodes (m : Mem) : Nat → Nat → List Nat
  | _, 0 => []
  | bp, fuel + 1 => if bp = 0 then [] else bp :: listNodes m (next_listbp m bp) fuel

/-- Outcome of the Placement search, as the spec describes it. -/
inductive SearchOutcome where
  | hit (p : Nat)
  | escalate (p : Nat)
  | grow (bytes : Nat)

/-- Transcription of the search policy in the spec's words (claim C8):
scan at most 32 blocks from the head of class `classOf(asize)`'s list and
take the first whose size is ≥ `asize`; if none is found within the
bound, take the list head of the first non-empty class with index greater
than `classOf(asize)`; only if all those classes are empty is arena
growth of `max(asize, 4096)` bytes requested. -/
def spec_search (s : AState) (asize : Nat) : SearchOutcome :=
  let k := search_seg_list asize
  match (listNodes s.mem (s.seg k) 32).find?
      (fun p => decide (asize ≤ get_size s.mem (p_to_header p))) with
  | some p => .hit p
  | none =>
    match (List.range' (k + 1) (13 - k)).find? (fun j => s.seg j != 0) with
    | some j => .escalate (s.seg j)
    | none => .grow (max asize 4096)

/-- Well-formedness invariant of an allocator state, used for claim C6.
It says: the break is 16-aligned and past the initial prologue; every
node reachable in the first 32 steps of any class list is a 16-aligned
payload pointer of a block lying inside the arena (between the prologue
and the last block's footer); the footer word just below the epilogue
header encodes a block size of at least 32 that stays inside the arena;
and when that last block is marked free, its two free-list link words are
NULL or in-arena payload pointers.  All of this holds in every arena the
allocator itself builds (e.g. right after `mm_init`). -/
def Inv (s : AState) : Prop :=
  s.brk % 16 = 0 ∧ 48 ≤ s.brk ∧
  (∀ i, i < 14 → ∀ p ∈ listNodes s.mem (s.seg i) 32, p % 16 = 0 ∧ 32 ≤ p ∧ p + 32 ≤ s.brk) ∧
  32 ≤ get_size s.mem (s.brk - 16) ∧
  get_size s.mem (s.brk - 16) + 32 ≤ s.brk ∧
  (get_alloc s.mem (s.brk - get_size s.mem (s.brk - 16) - 8) = 0 →
    (s.mem (s.brk - get_size s.mem (s.brk - 16)) = 0 ∨
      s.mem (s.brk - get_size s.mem (s.brk - 16)) + 32 ≤ s.brk) ∧
    (s.mem (s.brk - get_size s.mem (s.brk - 16) + 8) = 0 ∨
      s.mem (s.brk - get_size s.mem (s.brk - 16) + 8) + 32 ≤ s.brk))

/-! ## Concrete arenas used as test inputs

Layout of `memAB` (a well-formed arena as produced by the allocator):
prologue pad at 0, prologue header/footer `pack(16,1) = 17` at 8 and 16;
block A: header 24, payload 32, footer 48, word `pack(32,1) = 33`
(allocated, size 32); block B: header 56, payload 64, footer 80, word 33;
epilogue header `pack(0,1) = 1` at 88; break 96; all free lists empty. -/
def memAB : Mem := fun a =>
  if a = 8 then 17 else if a = 16 then 17
  else if a = 24 then 33
  else if a = 48 then 33 else if a = 56 then 33
  else if a = 80 then 33 else if a = 88 then 1 else 0

/-- Arena with two adjacent live allocated blocks A (payload 32) and
B (payload 64). -/
def heapAB : AState := { mem := memAB, seg := fun _ => 0, brk := 96 }

/-- Arena with one free block F (payload 32, size 32, sole member of
class-1 list, link words 0/0, header/footer word 32) followed by a live
allocated block G (header 56, footer 80, word 33) whose payload words are
`m 64 = 0` and `m 72 = 16` (caller-owned data), then the epilogue at 88. -/
def memF : Mem := fun a =>
  if a = 8 then 17 else if a = 16 then 17
  else if a = 24 then 32
  else if a = 48 then 32
  else if a = 56 then 33
  else if a = 72 then 16
  else if a = 80 then 33 else if a = 88 then 1 else 0

/-- Arena with free F at 32 (class-1 head) and allocated G at 64. -/
def heapF : AState := { mem := memF, seg := setSeg (fun _ => 0) 1 32, brk := 96 }

/-- A state whose free lists are all empty (nothing fits anywhere). -/
def emptyS : AState := { mem := fun _ => 0, seg := fun _ => 0, brk := 48 }

/-- Arena for the C7 scenario: like `heapF` — free block F (size 32,
payload 32, sole member of the class-1 list) followed by live allocated
block G (header 56, footer 80) — but G's caller-owned payload holds the
data words `m 64 = 123` and `m 72 = 0`. -/
def memR : Mem := fun a =>
  if a = 8 then 17 else if a = 16 then 17
  else if a = 24 then 32
  else if a = 48 then 32
  else if a = 56 then 33
  else if a = 64 then 123
  else if a = 80 then 33 else if a = 88 then 1 else 0

/-- Arena with free F at 32 (class-1 head) and allocated G at 64 whose
payload holds 123 in its first word. -/
def heapR : AState := { mem := memR, seg := setSeg (fun _ => 0) 1 32, brk := 96 }

/-! ## Word-level helper lemmas -/

theorem get_put_same (m : Mem) (a v : Nat) : get (put m a v) a = v := by
  simp [get, put]

theorem get_put_ne (m : Mem) (a v x : Nat) (h : x ≠ a) : get (put m a v) x = get m x := by
  simp [get, put, h]

theorem W_val : W = 18446744073709551616 := by norm_num [W]

/-- Bit `i` of a multiple of 16 is 0 for `i < 4`. -/
theorem aligned_testBit_low (x i : Nat) (h16 : x % 16 = 0) (hi : i < 4) :
    x.testBit i = false := by
  have hx : x = (x / 16) <<< 4 := by
    rw [Nat.shiftLeft_eq]
    omega
  rw [hx, Nat.testBit_shiftLeft]
  have : decide (4 ≤ i) = false := by simp; omega
  rw [this, Bool.false_and]

/-- Bits above position 0 of a flag that is 0 or 1 are 0. -/
theorem flag_testBit_pos (f i : Nat) (hf : f ≤ 1) (hi : 1 ≤ i) : f.testBit i = false := by
  apply Nat.testBit_lt_two_pow
  calc f ≤ 1 := hf
    _ < 2 ^ 1 := by norm_num
    _ ≤ 2 ^ i := Nat.pow_le_pow_right (by norm_num) hi

/-- `w & ~0xf` extracts the low 64 bits of `w` with the low 4 bits cleared. -/
theorem size_of_word_eq (w : Nat) : size_of_word w = w % W / 16 * 16 := by
  have hmask : W - 16 = (2 ^ 60 - 1) <<< 4 := by decide
  have hr : w % W / 16 * 16 = ((w % W) >>> 4) <<< 4 := by
    rw [Nat.shiftRight_eq_div_pow, Nat.shiftLeft_eq]
  apply Nat.eq_of_testBit_eq
  intro i
  rw [size_of_word, hmask, hr, Nat.testBit_land, Nat.testBit_shiftLeft,
      Nat.testBit_shiftLeft, Nat.testBit_shiftRight, Nat.testBit_two_pow_sub_one]
  show (w.testBit i && (decide (4 ≤ i) && decide (i - 4 < 60)))
     = (decide (4 ≤ i) && Nat.testBit (w % W) (4 + (i - 4)))
  rw [show W = 2 ^ 64 from rfl, Nat.testBit_mod_two_pow]
  by_cases h4 : 4 ≤ i
  · have he : 4 + (i - 4) = i := by omega
    rw [he]
    have h60 : decide (i - 4 < 60) = decide (i < 64) := decide_eq_decide.mpr (by omega)
    rw [h60, decide_eq_true h4]
    cases Nat.testBit w i <;> cases (decide (i < 64)) <;> simp
  · have h4d : decide (4 ≤ i) = false := by simp [h4]
    rw [h4d]
    simp

/-- `w & 0x1` is `w mod 2`. -/
theorem alloc_of_word_eq (w : Nat) : alloc_of_word w = w % 2 :=
  Nat.and_one_is_mod w

/-- The size field of any word is a multiple of 16. -/
theorem size_of_word_mod16 (w : Nat) : size_of_word w % 16 = 0 := by
  rw [size_of_word_eq]
  omega

/-- The size field of any word is below `2^64`. -/
theorem size_of_word_lt (w : Nat) : size_of_word w < W := by
  rw [size_of_word_eq]
  have h : w % W < W := Nat.mod_lt _ (by rw [W_val]; omega)
  omega

theorem get_size_mod16 (m : Mem) (a : Nat) : get_size m a % 16 = 0 :=
  size_of_word_mod16 (get m a)

theorem get_size_lt (m : Mem) (a : Nat) : get_size m a < W :=
  size_of_word_lt (get m a)

/-- Decoding the size field of a packed word recovers the size. -/
theorem pack_get_size (size flag : Nat) (h16 : size % 16 = 0) (hW : size < W)
    (hf : flag ≤ 1) : size_of_word (pack size flag) = size := by
  have hmask : W - 16 = (2 ^ 60 - 1) <<< 4 := by decide
  apply Nat.eq_of_testBit_eq
  intro i
  rw [size_of_word, pack, hmask, Nat.testBit_land, Nat.testBit_lor,
      Nat.testBit_shiftLeft, Nat.testBit_two_pow_sub_one]
  rcases Nat.lt_or_ge i 4 with h4 | h4
  · have h1 : size.testBit i = false := aligned_testBit_low size i h16 h4
    have h2 : decide (4 ≤ i) = false := by simp; omega
    rw [h1, h2, Bool.false_and, Bool.and_false]
  · have hfi : flag.testBit i = false := flag_testBit_pos flag i hf (by omega)
    have h2 : decide (4 ≤ i) = true := decide_eq_true h4
    rw [hfi, h2, Bool.or_false, Bool.true_and]
    rcases Nat.lt_or_ge i 64 with h64 | h64
    · have : decide (i - 4 < 60) = true := decide_eq_true (by omega)
      rw [this, Bool.and_true]
    · have hs : size.testBit i = false := by
        apply Nat.testBit_lt_two_pow
        calc size < W := hW
          _ = 2 ^ 64 := rfl
          _ ≤ 2 ^ i := Nat.pow_le_pow_right (by norm_num) h64
      have : decide (i - 4 < 60) = false := by simp; omega
      rw [hs, this, Bool.false_and]

/-- Decoding the allocated flag of a packed word recovers the flag. -/
theorem pack_get_alloc (size flag : Nat) (h16 : size % 16 = 0) (hf : flag ≤ 1) :
    alloc_of_word (pack size flag) = flag := by
  apply Nat.eq_of_testBit_eq
  intro i
  rw [alloc_of_word, pack, Nat.testBit_land, Nat.testBit_lor]
  have h1 : (1 : Nat).testBit i = decide (0 = i) := by
    have h0 : (1 : Nat) = 2 ^ 0 := rfl
    rw [h0, Nat.testBit_two_pow]
  rcases Nat.eq_zero_or_pos i with rfl | hi
  · have hs : size.testBit 0 = false := aligned_testBit_low size 0 h16 (by norm_num)
    rw [hs, h1, Bool.false_or]
    simp
  · have hfi : flag.testBit i = false := flag_testBit_pos flag i hf hi
    rw [hfi, h1, Bool.or_false]
    have : decide (0 = i) = false := by simp; omega
    rw [this, Bool.and_false]

theorem search_seg_list_le (sz : Nat) : search_seg_list sz ≤ 13 := by
  by_cases c0 : sz < 32
  · delta search_seg_list
    rw [if_pos c0]
    omega
  by_cases c1 : sz < 64
  · delta search_seg_list
    rw [if_neg (show ¬ (sz < 32) by omega),
        if_pos (show 32 ≤ sz ∧ sz < 64 by omega)]
    omega
  by_cases c2 : sz < 128
  · delta search_seg_list
    rw [if_neg (show ¬ (sz < 32) by omega),
        if_neg (show ¬ (32 ≤ sz ∧ sz < 64) by omega),
        if_pos (show 64 ≤ sz ∧ sz < 128 by omega)]
    omega
  by_cases c3 : sz < 256
  · delta search_seg_list
    rw [if_neg (show ¬ (sz < 32) by omega),
        if_neg (show ¬ (32 ≤ sz ∧ sz < 64) by omega),
        if_neg (show ¬ (64 ≤ sz ∧ sz < 128) by omega),
        if_pos (show 128 ≤ sz ∧ sz < 256 by omega)]
    omega
  by_cases c4 : sz < 512
  · delta search_seg_list
    rw [if_neg (show ¬ (sz < 32) by omega),
        if_neg (show ¬ (32 ≤ sz ∧ sz < 64) by omega),
        if_neg (show ¬ (64 ≤ sz ∧ sz < 128) by omega),
        if_neg (show ¬ (128 ≤ sz ∧ sz < 256) by omega),
        if_pos (show 256 ≤ sz ∧ sz < 512 by omega)]
    omega
  by_cases c5 : sz < 1024
  · delta search_seg_list
    rw [if_neg (show ¬ (sz < 32) by omega),
        if_neg (show ¬ (32 ≤ sz ∧ sz < 64) by omega),
        if_neg (show ¬ (64 ≤ sz ∧ sz < 128) by omega),
        if_neg (show ¬ (128 ≤ sz ∧ sz < 256) by omega),
        if_neg (show ¬ (256 ≤ sz ∧ sz < 512) by omega),
        if_pos (show 512 ≤ sz ∧ sz < 1024 by omega)]
    omega
  by_cases c6 : sz < 2048
  · delta search_seg_list
    rw [if_neg (show ¬ (sz < 32) by omega),
        if_neg (show ¬ (32 ≤ sz ∧ sz < 64) by omega),
        if_neg (show ¬ (64 ≤ sz ∧ sz < 128) by omega),
        if_neg (show ¬ (128 ≤ sz ∧ sz < 256) by omega),
        if_neg (show ¬ (256 ≤ sz ∧ sz < 512) by omega),
        if_neg (show ¬ (512 ≤ sz ∧ sz < 1024) by omega),
        if_pos (show 1024 ≤ sz ∧ sz < 2048 by omega)]
    omega
  by_cases c7 : sz < 4096
  · delta search_seg_list
    rw [if_neg (show ¬ (sz < 32) by omega),
        if_neg (show ¬ (32 ≤ sz ∧ sz < 64) by omega),
        if_neg (show ¬ (64 ≤ sz ∧ sz < 128) by omega),
        if_neg (show ¬ (128 ≤ sz ∧ sz < 256) by omega),
        if_neg (show ¬ (256 ≤ sz ∧ sz < 512) by omega),
        if_neg (show ¬ (512 ≤ sz ∧ sz < 1024) by omega),
        if_neg (show ¬ (1024 ≤ sz ∧ sz < 2048) by omega),
        if_pos (show 2048 ≤ sz ∧ sz < 4096 by omega)]
    omega
  by_cases c8 : sz < 8192
  · delta search_seg_list
    rw [if_neg (show ¬ (sz < 32) by omega),
        if_neg (show ¬ (32 ≤ sz ∧ sz < 64) by omega),
        if_neg (show ¬ (64 ≤ sz ∧ sz < 128) by omega),
        if_neg (show ¬ (128 ≤ sz ∧ sz < 256) by omega),
        if_neg (show ¬ (256 ≤ sz ∧ sz < 512) by omega),
        if_neg (show ¬ (512 ≤ sz ∧ sz < 1024) by omega),
        if_neg (show ¬ (1024 ≤ sz ∧ sz < 2048) by omega),
        if_neg (show ¬ (2048 ≤ sz ∧ sz < 4096) by omega),
        if_pos (show 4096 ≤ sz ∧ sz < 8192 by omega)]
    omega
  by_cases c9 : sz < 16384
  · delta search_seg_list
    rw [if_neg (show ¬ (sz < 32) by omega),
        if_neg (show ¬ (32 ≤ sz ∧ sz < 64) by omega),
        if_neg (show ¬ (64 ≤ sz ∧ sz < 128) by omega),
        if_neg (show ¬ (128 ≤ sz ∧ sz < 256) by omega),
        if_neg (show ¬ (256 ≤ sz ∧ sz < 512) by omega),
        if_neg (show ¬ (512 ≤ sz ∧ sz < 1024) by omega),
        if_neg (show ¬ (1024 ≤ sz ∧ sz < 2048) by omega),
        if_neg (show ¬ (2048 ≤ sz ∧ sz < 4096) by omega),
        if_neg (show ¬ (4096 ≤ sz ∧ sz < 8192) by omega),
        if_pos (show 8192 ≤ sz ∧ sz < 16384 by omega)]
    omega
  by_cases c10 : sz < 32768
  · delta search_seg_list
    rw [if_neg (show ¬ (sz < 32) by omega),
        if_neg (show ¬ (32 ≤ sz ∧ sz < 64) by omega),
        if_neg (show ¬ (64 ≤ sz ∧ sz < 128) by omega),
        if_neg (show ¬ (128 ≤ sz ∧ sz < 256) by omega),
        if_neg (show ¬ (256 ≤ sz ∧ sz < 512) by omega),
        if_neg (show ¬ (512 ≤ sz ∧ sz < 1024) by omega),
        if_neg (show ¬ (1024 ≤ sz ∧ sz < 2048) by omega),
        if_neg (show ¬ (2048 ≤ sz ∧ sz < 4096) by omega),
        if_neg (show ¬ (4096 ≤ sz ∧ sz < 8192) by omega),
        if_neg (show ¬ (8192 ≤ sz ∧ sz < 16384) by omega),
        if_pos (show 16384 ≤ sz ∧ sz < 32768 by omega)]
    omega
  by_cases c11 : sz < 65536
  · delta search_seg_list
    rw [if_neg (show ¬ (sz < 32) by omega),
        if_neg (show ¬ (32 ≤ sz ∧ sz < 64) by omega),
        if_neg (show ¬ (64 ≤ sz ∧ sz < 128) by omega),
        if_neg (show ¬ (128 ≤ sz ∧ sz < 256) by omega),
        if_neg (show ¬ (256 ≤ sz ∧ sz < 512) by omega),
        if_neg (show ¬ (512 ≤ sz ∧ sz < 1024) by omega),
        if_neg (show ¬ (1024 ≤ sz ∧ sz < 2048) by omega),
        if_neg (show ¬ (2048 ≤ sz ∧ sz < 4096) by omega),
        if_neg (show ¬ (4096 ≤ sz ∧ sz < 8192) by omega),
        if_neg (show ¬ (8192 ≤ sz ∧ sz < 16384) by omega),
        if_neg (show ¬ (16384 ≤ sz ∧ sz < 32768) by omega),
        if_pos (show 32768 ≤ sz ∧ sz < 65536 by omega)]
    omega
  by_cases c12 : sz < 131072
  · delta search_seg_list
    rw [if_neg (show ¬ (sz < 32) by omega),
        if_neg (show ¬ (32 ≤ sz ∧ sz < 64) by omega),
        if_neg (show ¬ (64 ≤ sz ∧ sz < 128) by omega),
        if_neg (show ¬ (128 ≤ sz ∧ sz < 256) by omega),
        if_neg (show ¬ (256 ≤ sz ∧ sz < 512) by omega),
        if_neg (show ¬ (512 ≤ sz ∧ sz < 1024) by omega),
        if_neg (show ¬ (1024 ≤ sz ∧ sz < 2048) by omega),
        if_neg (show ¬ (2048 ≤ sz ∧ sz < 4096) by omega),
        if_neg (show ¬ (4096 ≤ sz ∧ sz < 8192) by omega),
        if_neg (show ¬ (8192 ≤ sz ∧ sz < 16384) by omega),
        if_neg (show ¬ (16384 ≤ sz ∧ sz < 32768) by omega),
        if_neg (show ¬ (32768 ≤ sz ∧ sz < 65536) by omega),
        if_pos (show 65536 ≤ sz ∧ sz < 131072 by omega)]
    omega
  delta search_seg_list
  rw [if_neg (show ¬ (sz < 32) by omega),
      if_neg (show ¬ (32 ≤ sz ∧ sz < 64) by omega),
      if_neg (show ¬ (64 ≤ sz ∧ sz < 128) by omega),
      if_neg (show ¬ (128 ≤ sz ∧ sz < 256) by omega),
      if_neg (show ¬ (256 ≤ sz ∧ sz < 512) by omega),
      if_neg (show ¬ (512 ≤ sz ∧ sz < 1024) by omega),
      if_neg (show ¬ (1024 ≤ sz ∧ sz < 2048) by omega),
      if_neg (show ¬ (2048 ≤ sz ∧ sz < 4096) by omega),
      if_neg (show ¬ (4096 ≤ sz ∧ sz < 8192) by omega),
      if_neg (show ¬ (8192 ≤ sz ∧ sz < 16384) by omega),
      if_neg (show ¬ (16384 ≤ sz ∧ sz < 32768) by omega),
      if_neg (show ¬ (32768 ≤ sz ∧ sz < 65536) by omega),
      if_neg (show ¬ (65536 ≤ sz ∧ sz < 131072) by omega)]

theorem scan_blocks_eq_find (m : Mem) (asize : Nat) :
    ∀ fuel bp, scan_blocks m asize bp fuel
      = (listNodes m bp fuel).find? (fun p => decide (asize ≤ get_size m (p_to_header p)))
  | 0, bp => rfl
  | fuel + 1, bp => by
    rw [scan_blocks, listNodes]
    by_cases h0 : bp = 0
    · rw [if_pos h0, if_pos h0]
      rfl
    · rw [if_neg h0, if_neg h0, List.find?_cons]
      by_cases hfit : asize ≤ get_size m (p_to_header bp)
      · rw [if_pos hfit]
        have : (decide (asize ≤ get_size m (p_to_header bp))) = true := decide_eq_true hfit
        rw [this]
      · rw [if_neg hfit]
        have : (decide (asize ≤ get_size m (p_to_header bp))) = false := by
          simp [hfit]
        rw [this]
        exact scan_blocks_eq_find m asize fuel (next_listbp m bp)

theorem find_head_eq_range (seg : Nat → Nat) :
    ∀ fuel idx, 14 ≤ idx + fuel →
      find_head seg idx fuel
        = ((List.range' idx (14 - idx)).find? (fun j => seg j != 0)).elim 0 seg
  | 0, idx, h => by
    have h14 : 14 - idx = 0 := by omega
    rw [h14, find_head]
    rfl
  | fuel + 1, idx, h => by
    rw [find_head]
    by_cases hidx : idx < 14
    · rw [if_pos hidx]
      have h14 : 14 - idx = (14 - (idx + 1)) + 1 := by omega
      rw [h14, List.range'_succ, List.find?_cons]
      by_cases hseg : seg idx ≠ 0
      · rw [if_pos hseg]
        have : (seg idx != 0) = true := by simp [hseg]
        rw [this]
        rfl
      · rw [if_neg hseg]
        have : (seg idx != 0) = false := by simp at hseg; simp [hseg]
        rw [this]
        exact find_head_eq_range seg fuel (idx + 1) (by omega)
    · rw [if_neg hidx]
      have h14 : 14 - idx = 0 := by omega
      rw [h14]
      rfl

theorem find_head_mem (seg : Nat → Nat) :
    ∀ fuel idx, find_head seg idx fuel ≠ 0 →
      ∃ j, j < 14 ∧ seg j = find_head seg idx fuel
  | 0, _, h => absurd rfl h
  | fuel + 1, idx, h => by
    rw [find_head] at h ⊢
    by_cases hidx : idx < 14
    · rw [if_pos hidx] at h ⊢
      by_cases hseg : seg idx ≠ 0
      · rw [if_pos hseg] at h ⊢
        exact ⟨idx, hidx, rfl⟩
      · rw [if_neg hseg] at h ⊢
        exact find_head_mem seg fuel (idx + 1) h
    · rw [if_neg hidx] at h
      exact absurd rfl h

theorem put_app_same (m : Mem) (a v : Nat) : put m a v a = v := by
  simp [put]

theorem put_app_ne (m : Mem) (a v x : Nat) (h : x ≠ a) : put m a v x = m x := by
  simp [put, h]

theorem add_list_block_brk (s : AState) (bp size : Nat) :
    (add_list_block s bp size).brk = s.brk := by
  simp only [add_list_block]
  split <;> rfl

theorem add_list_block_seg (s : AState) (bp size : Nat) :
    (add_list_block s bp size).seg = setSeg s.seg (search_seg_list size) bp := by
  simp only [add_list_block]
  split <;> rfl

theorem add_list_block_mem_other (s : AState) (bp size x : Nat)
    (h1 : x ≠ bp) (h2 : x ≠ bp + 8) (h3 : x ≠ s.seg (search_seg_list size)) :
    (add_list_block s bp size).mem x = s.mem x := by
  simp only [add_list_block, prev_freebp, next_freebp]
  split
  · show put (put (put s.mem bp 0) (bp + 8) (s.seg (search_seg_list size)))
      (s.seg (search_seg_list size)) bp x = s.mem x
    rw [put_app_ne _ _ _ _ h3, put_app_ne _ _ _ _ h2, put_app_ne _ _ _ _ h1]
  · show put (put s.mem bp 0) (bp + 8) 0 x = s.mem x
    rw [put_app_ne _ _ _ _ h2, put_app_ne _ _ _ _ h1]

theorem add_list_block_mem_bp (s : AState) (bp size : Nat)
    (h3 : s.seg (search_seg_list size) ≠ bp) :
    (add_list_block s bp size).mem bp = 0 := by
  simp only [add_list_block, prev_freebp, next_freebp]
  split
  · show put (put (put s.mem bp 0) (bp + 8) (s.seg (search_seg_list size)))
      (s.seg (search_seg_list size)) bp bp = 0
    rw [put_app_ne _ _ _ _ (Ne.symm h3), put_app_ne _ _ _ _ (by omega), put_app_same]
  · show put (put s.mem bp 0) (bp + 8) 0 bp = 0
    rw [put_app_ne _ _ _ _ (by omega), put_app_same]

theorem add_list_block_mem_bp8 (s : AState) (bp size : Nat)
    (h3 : s.seg (search_seg_list size) ≠ bp + 8) :
    (add_list_block s bp size).mem (bp + 8) = s.seg (search_seg_list size) := by
  simp only [add_list_block, prev_freebp, next_freebp]
  split
  · show put (put (put s.mem bp 0) (bp + 8) (s.seg (search_seg_list size)))
      (s.seg (search_seg_list size)) bp (bp + 8) = s.seg (search_seg_list size)
    rw [put_app_ne _ _ _ _ (Ne.symm h3), put_app_same]
  · next hc =>
    show put (put s.mem bp 0) (bp + 8) 0 (bp + 8) = s.seg (search_seg_list size)
    rw [put_app_same]
    simp at hc
    exact hc.symm

theorem delete_list_blcok_brk (s : AState) (bp : Nat) :
    (delete_list_blcok s bp).brk = s.brk := by
  simp only [delete_list_blcok]
  split <;> split <;> rfl

theorem delete_list_blcok_seg_of_ne (s : AState) (bp i : Nat)
    (h : i ≠ search_seg_list (get_size s.mem (p_to_header bp))) :
    (delete_list_blcok s bp).seg i = s.seg i := by
  simp only [delete_list_blcok]
  split <;> split <;> simp [setSeg, h]

/-- `delete_list_blcok` writes memory only at the unlinked node's
next-in-list target and at (previous-in-list target) + 8. -/
theorem delete_list_blcok_mem_other (s : AState) (bp x : Nat)
    (h1 : x ≠ next_listbp s.mem bp)
    (h2 : x ≠ prev_listbp s.mem bp + 8) :
    (delete_list_blcok s bp).mem x = s.mem x := by
  simp only [delete_list_blcok, prev_freebp, next_freebp]
  by_cases hp : prev_listbp s.mem bp = 0
  · rw [if_pos hp]
    by_cases hn : next_listbp s.mem bp ≠ 0
    · rw [if_pos hn]
      show put s.mem (next_listbp s.mem bp) 0 x = s.mem x
      rw [put_app_ne _ _ _ _ h1]
    · rw [if_neg hn]
  · rw [if_neg hp]
    by_cases hn : next_listbp s.mem bp ≠ 0
    · rw [if_pos hn]
      show put (put s.mem (next_listbp s.mem bp) (prev_listbp s.mem bp))
        (prev_listbp (put s.mem (next_listbp s.mem bp) (prev_listbp s.mem bp)) bp + 8)
        (next_listbp (put s.mem (next_listbp s.mem bp) (prev_listbp s.mem bp)) bp) x = s.mem x
      have hpl : prev_listbp (put s.mem (next_listbp s.mem bp) (prev_listbp s.mem bp)) bp
          = prev_listbp s.mem bp := by
        show (if bp = next_listbp s.mem bp then prev_listbp s.mem bp else s.mem bp)
          = prev_listbp s.mem bp
        by_cases hbb : bp = next_listbp s.mem bp
        · rw [if_pos hbb]
        · rw [if_neg hbb]
          rfl
      rw [hpl, put_app_ne _ _ _ _ h2, put_app_ne _ _ _ _ h1]
    · rw [if_neg hn]
      show put s.mem (prev_listbp s.mem bp + 8) 0 x = s.mem x
      rw [put_app_ne _ _ _ _ h2]

theorem coalesce_brk (s : AState) (bp : Nat) : (coalesce s bp).1.brk = s.brk := by
  simp only [coalesce]
  split
  · rfl
  split
  · show (add_list_block { delete_list_blcok (delete_list_blcok s bp) _ with mem := _ } _ _).brk
      = s.brk
    rw [add_list_block_brk]
    show (delete_list_blcok (delete_list_blcok s bp) _).brk = s.brk
    rw [delete_list_blcok_brk, delete_list_blcok_brk]
  split
  · show (add_list_block { delete_list_blcok (delete_list_blcok s bp) _ with mem := _ } _ _).brk
      = s.brk
    rw [add_list_block_brk]
    show (delete_list_blcok (delete_list_blcok s bp) _).brk = s.brk
    rw [delete_list_blcok_brk, delete_list_blcok_brk]
  · show (add_list_block
      { delete_list_blcok (delete_list_blcok (delete_list_blcok s bp) _) _ with mem := _ } _ _).brk
      = s.brk
    rw [add_list_block_brk]
    show (delete_list_blcok (delete_list_blcok (delete_list_blcok s bp) _) _).brk = s.brk
    rw [delete_list_blcok_brk, delete_list_blcok_brk, delete_list_blcok_brk]

theorem place_brk (s : AState) (bp asize junk : Nat) :
    (place s bp asize junk).1.brk = s.brk := by
  simp only [place]
  split
  · show (add_list_block { delete_list_blcok s bp with mem := _ } _ _).brk = s.brk
    rw [add_list_block_brk]
    show (delete_list_blcok s bp).brk = s.brk
    rw [delete_list_blcok_brk]
  · show ({ delete_list_blcok s bp with mem := _ } : AState).brk = s.brk
    rw [delete_list_blcok_brk]

theorem extendState_brk (s : AState) (a : Nat) : (extendState s a).brk = s.brk + a := by
  simp only [extendState]
  rw [add_list_block_brk]

theorem extendState_seg (s : AState) (a : Nat) :
    (extendState s a).seg = setSeg s.seg (search_seg_list a) s.brk := by
  simp only [extendState]
  rw [add_list_block_seg]


theorem extendState_mem (s : AState) (a : Nat)
    (ha16 : a % 16 = 0) (haW : a < W) (ha : 16 ≤ a) (hb : 8 ≤ s.brk) :
    (extendState s a).mem = fun x =>
      if x = s.brk + a - 8 then pack 0 1
      else if x = s.brk + a - 16 then pack a 0
      else if x = s.brk - 8 then pack a 0
      else (add_list_block { s with brk := s.brk + a } s.brk a).mem x := by
  set hA := add_list_block { s with brk := s.brk + a } s.brk a with hAdef
  simp only [extendState]
  rw [← hAdef]
  have hm1read : get_size (put hA.mem (p_to_header s.brk) (pack a 0)) (p_to_header s.brk) = a := by
    show size_of_word (put hA.mem (p_to_header s.brk) (pack a 0) (p_to_header s.brk)) = a
    rw [put_app_same]
    exact pack_get_size a 0 ha16 haW (by norm_num)
  have hfoot : p_to_footer (put hA.mem (p_to_header s.brk) (pack a 0)) s.brk
      = s.brk + a - 16 := by
    rw [p_to_footer, hm1read]
  rw [hfoot]
  have hm2read : get_size (put (put hA.mem (p_to_header s.brk) (pack a 0))
      (s.brk + a - 16) (pack a 0)) (p_to_header s.brk) = a := by
    have hne : p_to_header s.brk ≠ s.brk + a - 16 := by rw [p_to_header]; omega
    show size_of_word (put (put hA.mem (p_to_header s.brk) (pack a 0))
      (s.brk + a - 16) (pack a 0) (p_to_header s.brk)) = a
    rw [put_app_ne _ _ _ _ hne, put_app_same]
    exact pack_get_size a 0 ha16 haW (by norm_num)
  have hnext : next_bp (put (put hA.mem (p_to_header s.brk) (pack a 0))
      (s.brk + a - 16) (pack a 0)) s.brk = s.brk + a := by
    rw [next_bp, hm2read]
  rw [hnext]
  funext x
  simp only [p_to_header, put]

theorem prod_snd_mk {A B : Type} (x : A) (y : B) : (x, y).2 = y := rfl

theorem delete_list_blcok_mem_nexttgt (s : AState) (bp : Nat)
    (hp : prev_listbp s.mem bp = 0) (hn : next_listbp s.mem bp ≠ 0) :
    (delete_list_blcok s bp).mem (next_listbp s.mem bp) = 0 := by
  simp only [delete_list_blcok]
  rw [if_pos hp, if_pos hn]
  show put s.mem (prev_freebp (next_listbp s.mem bp)) 0 (next_listbp s.mem bp) = 0
  rw [prev_freebp, put_app_same]

theorem extend_heap_ok (s : AState) (w : Nat) (hInv : Inv s)
    (hw4096 : 4096 ≤ w) (hw16 : w % 16 = 0) (hwW : w ≤ W - 16) :
    ∃ st bp1, extend_heap s w true = some (st, bp1) ∧
      bp1 % 16 = 0 ∧ 32 ≤ bp1 ∧ bp1 ≤ s.brk ∧ st.brk = s.brk + w := by
  obtain ⟨hb16, hb48, hnodes, hsz32, hszb, hlinks⟩ := hInv
  have hWval : W = 18446744073709551616 := W_val
  have haW : w < W := by omega
  have halign : align w = w := by
    rw [align, hWval]
    omega
  have hret : extend_heap s w true = some (coalesce (extendState s w) s.brk) := by
    simp [extend_heap, halign]
  set b := s.brk with hb
  set sz := get_size s.mem (b - 16) with hszdef
  have hsz16 : sz % 16 = 0 := by rw [hszdef]; exact get_size_mod16 s.mem (b - 16)
  set q := b - sz with hq
  set k := search_seg_list w with hk
  have hk14 : k < 14 := by have := search_seg_list_le w; omega
  set h := s.seg k with hh
  have hln : listNodes s.mem h 32
      = if h = 0 then [] else h :: listNodes s.mem (next_listbp s.mem h) 31 := rfl
  have hhgood : h = 0 ∨ (h % 16 = 0 ∧ 32 ≤ h ∧ h + 32 ≤ b) := by
    by_cases h0 : h = 0
    · exact Or.inl h0
    · refine Or.inr (hnodes k hk14 h ?_)
      rw [hh, ← hh, hln, if_neg h0]
      exact List.mem_cons_self _ _
  have hEm := extendState_mem s w hw16 haW (by omega) (by omega)
  rw [← hb] at hEm
  have hEbrk : (extendState s w).brk = b + w := by
    rw [extendState_brk]
  -- pointwise reading of the extended state memory
  have hmE : ∀ x, (extendState s w).mem x =
      if x = b + w - 8 then pack 0 1
      else if x = b + w - 16 then pack w 0
      else if x = b - 8 then pack w 0
      else (add_list_block { s with brk := b + w } b w).mem x := by
    intro x
    rw [hEm]
  have hread_other : ∀ x, x ≠ b + w - 8 → x ≠ b + w - 16 → x ≠ b - 8 →
      x ≠ b → x ≠ b + 8 → x ≠ h →
      (extendState s w).mem x = s.mem x := by
    intro x h1 h2 h3 h4 h5 h6
    rw [hmE x, if_neg h1, if_neg h2, if_neg h3]
    refine add_list_block_mem_other _ b w x h4 h5 ?_
    show x ≠ s.seg (search_seg_list w)
    rw [← hk, ← hh]
    exact h6
  have hE_b16 : (extendState s w).mem (b - 16) = s.mem (b - 16) := by
    refine hread_other _ (by omega) (by omega) (by omega) (by omega) (by omega) ?_
    rcases hhgood with h0 | ⟨_, _, hlt⟩ <;> omega
  have hszE : get_size (extendState s w).mem (b - 16) = sz := by
    show size_of_word ((extendState s w).mem (b - 16)) = sz
    rw [hE_b16]
    exact hszdef.symm
  have hprev : prev_bp (extendState s w).mem b = q := by
    rw [prev_bp, hszE]
  have hE_b8 : (extendState s w).mem (b - 8) = pack w 0 := by
    rw [hmE, if_neg (by omega), if_neg (by omega), if_pos rfl]
  have hszE8 : get_size (extendState s w).mem (b - 8) = w := by
    show size_of_word ((extendState s w).mem (b - 8)) = w
    rw [hE_b8]
    exact pack_get_size w 0 hw16 haW (by norm_num)
  have hnextE : next_bp (extendState s w).mem b = b + w := by
    rw [next_bp, p_to_header, hszE8]
  have hepi : (extendState s w).mem (b + w - 8) = pack 0 1 := by
    rw [hmE, if_pos rfl]
  have hnextal : get_alloc (extendState s w).mem
      (p_to_header (next_bp (extendState s w).mem b)) = 1 := by
    rw [hnextE, p_to_header]
    show alloc_of_word ((extendState s w).mem (b + w - 8)) = 1
    rw [hepi]
    exact pack_get_alloc 0 1 (by norm_num) (by norm_num)
  have hE_q8 : (extendState s w).mem (q - 8) = s.mem (q - 8) := by
    refine hread_other _ (by omega) (by omega) (by omega) (by omega) (by omega) ?_
    rcases hhgood with h0 | ⟨hm, _, hlt⟩ <;> omega
  have hpreval : get_alloc (extendState s w).mem
      (p_to_header (prev_bp (extendState s w).mem b)) = get_alloc s.mem (q - 8) := by
    rw [hprev, p_to_header]
    show alloc_of_word ((extendState s w).mem (q - 8)) = alloc_of_word (get s.mem (q - 8))
    rw [hE_q8]
    rfl
  by_cases hpa : get_alloc s.mem (q - 8) = 0
  case neg =>
    -- last block allocated: no merge, coalesce returns the new block b
    have hco : coalesce (extendState s w) b = (extendState s w, b) := by
      simp only [coalesce]
      rw [if_pos (show _ ∧ _ from ⟨by rw [hpreval]; exact hpa, by rw [hnextal]; norm_num⟩)]
    refine ⟨extendState s w, b, ?_, by omega, by omega, by omega, hEbrk⟩
    rw [hret, hco]
  case pos =>
    -- the last block of the arena is marked free: coalesce merges with it
    have hlinksq := hlinks hpa
    have hpl_b : prev_listbp (extendState s w).mem b = 0 := by
      show (extendState s w).mem b = 0
      rw [hmE, if_neg (by omega), if_neg (by omega), if_neg (by omega)]
      refine add_list_block_mem_bp _ b w ?_
      show s.seg (search_seg_list w) ≠ b
      rw [← hk, ← hh]
      rcases hhgood with h0 | ⟨_, _, hlt⟩ <;> omega
    have hnl_b : next_listbp (extendState s w).mem b = h := by
      show (extendState s w).mem (b + 8) = h
      rw [hmE, if_neg (by omega), if_neg (by omega), if_neg (by omega)]
      have hne : ({ s with brk := b + w } : AState).seg (search_seg_list w) ≠ b + 8 := by
        show s.seg (search_seg_list w) ≠ b + 8
        rw [← hk, ← hh]
        rcases hhgood with h0 | ⟨hm, _, hlt⟩ <;> omega
      rw [add_list_block_mem_bp8 _ b w hne]
    have hS1_b16 : (delete_list_blcok (extendState s w) b).mem (b - 16)
        = (extendState s w).mem (b - 16) := by
      refine delete_list_blcok_mem_other _ b _ ?_ ?_
      · rw [hnl_b]
        rcases hhgood with h0 | ⟨hm, _, hlt⟩ <;> omega
      · rw [hpl_b]
        omega
    have hprev1 : prev_bp (delete_list_blcok (extendState s w) b).mem b = q := by
      rw [prev_bp]
      have hgs : get_size (delete_list_blcok (extendState s w) b).mem (b - 16) = sz := by
        show size_of_word ((delete_list_blcok (extendState s w) b).mem (b - 16)) = sz
        rw [hS1_b16, hE_b16]
        exact hszdef.symm
      rw [hgs]
    have hS1_b8 : (delete_list_blcok (extendState s w) b).mem (b - 8) = pack w 0 := by
      have heq : (delete_list_blcok (extendState s w) b).mem (b - 8)
          = (extendState s w).mem (b - 8) := by
        refine delete_list_blcok_mem_other _ b _ ?_ ?_
        · rw [hnl_b]
          rcases hhgood with h0 | ⟨hm, _, hlt⟩ <;> omega
        · rw [hpl_b]
          omega
      rw [heq, hE_b8]
    have hS1_q8 : (delete_list_blcok (extendState s w) b).mem (q + 8) = s.mem (q + 8) := by
      have heq : (delete_list_blcok (extendState s w) b).mem (q + 8)
          = (extendState s w).mem (q + 8) := by
        refine delete_list_blcok_mem_other _ b _ ?_ ?_
        · rw [hnl_b]
          rcases hhgood with h0 | ⟨hm, _, hlt⟩ <;> omega
        · rw [hpl_b]
          omega
      rw [heq]
      refine hread_other _ (by omega) (by omega) (by omega) (by omega) (by omega) ?_
      rcases hhgood with h0 | ⟨hm, _, hlt⟩ <;> omega
    have hS1_q : (delete_list_blcok (extendState s w) b).mem q = 0 ∨
        (delete_list_blcok (extendState s w) b).mem q = s.mem q := by
      by_cases hhq : h = q
      · left
        have h0 : h ≠ 0 := by omega
        have hzz := delete_list_blcok_mem_nexttgt (extendState s w) b hpl_b
          (by rw [hnl_b]; exact h0)
        rw [hnl_b] at hzz
        rw [← hhq]
        exact hzz
      · right
        have heq : (delete_list_blcok (extendState s w) b).mem q
            = (extendState s w).mem q := by
          refine delete_list_blcok_mem_other _ b _ ?_ ?_
          · rw [hnl_b]
            exact fun hc => hhq hc.symm
          · rw [hpl_b]
            omega
        rw [heq]
        refine hread_other _ (by omega) (by omega) (by omega) (by omega) (by omega) ?_
        exact fun hc => hhq hc.symm
    have hnlq : next_listbp (delete_list_blcok (extendState s w) b).mem q
        = s.mem (q + 8) := hS1_q8
    have hnlq_bound : s.mem (q + 8) = 0 ∨ s.mem (q + 8) + 32 ≤ b := hlinksq.2
    have hplq : prev_listbp (delete_list_blcok (extendState s w) b).mem q = 0 ∨
        (prev_listbp (delete_list_blcok (extendState s w) b).mem q + 32 ≤ b) := by
      rcases hS1_q with hc | hc
      · exact Or.inl hc
      · show (delete_list_blcok (extendState s w) b).mem q = 0 ∨
          (delete_list_blcok (extendState s w) b).mem q + 32 ≤ b
        rw [hc]
        exact hlinksq.1
    have hS2_b16 : (delete_list_blcok (delete_list_blcok (extendState s w) b) q).mem (b - 16)
        = (delete_list_blcok (extendState s w) b).mem (b - 16) := by
      refine delete_list_blcok_mem_other _ q _ ?_ ?_
      · rw [hnlq]
        rcases hnlq_bound with hc | hc <;> omega
      · rcases hplq with hc | hc
        · rw [hc]
          omega
        · omega
    have hS2_b8 : (delete_list_blcok (delete_list_blcok (extendState s w) b) q).mem (b - 8)
        = (delete_list_blcok (extendState s w) b).mem (b - 8) := by
      refine delete_list_blcok_mem_other _ q _ ?_ ?_
      · rw [hnlq]
        rcases hnlq_bound with hc | hc <;> omega
      · rcases hplq with hc | hc
        · rw [hc]
          omega
        · omega
    have hgs2_b16 : get_size
        (delete_list_blcok (delete_list_blcok (extendState s w) b) q).mem (b - 16) = sz := by
      show size_of_word
        ((delete_list_blcok (delete_list_blcok (extendState s w) b) q).mem (b - 16)) = sz
      rw [hS2_b16, hS1_b16, hE_b16]
      exact hszdef.symm
    have hgs2_b8 : get_size
        (delete_list_blcok (delete_list_blcok (extendState s w) b) q).mem (b - 8) = w := by
      show size_of_word
        ((delete_list_blcok (delete_list_blcok (extendState s w) b) q).mem (b - 8)) = w
      rw [hS2_b8, hS1_b8]
      exact pack_get_size w 0 hw16 haW (by norm_num)
    have hfoot2 : p_to_footer
        (delete_list_blcok (delete_list_blcok (extendState s w) b) q).mem b = b + w - 16 := by
      simp only [p_to_footer, p_to_header]
      rw [hgs2_b8]
    have hprevm1 : ∀ v, prev_bp (put
        (delete_list_blcok (delete_list_blcok (extendState s w) b) q).mem
        (b + w - 16) v) b = q := by
      intro v
      rw [prev_bp]
      have hgg : get_size (put
          (delete_list_blcok (delete_list_blcok (extendState s w) b) q).mem
          (b + w - 16) v) (b - 16) = sz := by
        show size_of_word (put
          (delete_list_blcok (delete_list_blcok (extendState s w) b) q).mem
          (b + w - 16) v (b - 16)) = sz
        rw [put_app_ne _ _ _ _ (by omega)]
        exact hgs2_b16
      rw [hgg]
    have hfinal : ∀ v1 v2, prev_bp (put (put
        (delete_list_blcok (delete_list_blcok (extendState s w) b) q).mem
        (b + w - 16) v1) (p_to_header q) v2) b = q := by
      intro v1 v2
      rw [prev_bp]
      have hgg : get_size (put (put
          (delete_list_blcok (delete_list_blcok (extendState s w) b) q).mem
          (b + w - 16) v1) (p_to_header q) v2) (b - 16) = sz := by
        show size_of_word (put (put
          (delete_list_blcok (delete_list_blcok (extendState s w) b) q).mem
          (b + w - 16) v1) (p_to_header q) v2 (b - 16)) = sz
        rw [put_app_ne _ _ _ _ (by rw [p_to_header]; omega),
            put_app_ne _ _ _ _ (by omega)]
        exact hgs2_b16
      rw [hgg]
    have hco2 : (coalesce (extendState s w) b).2 = q := by
      simp only [coalesce]
      rw [hpreval, hnextal]
      rw [if_neg (show ¬ (get_alloc s.mem (q - 8) ≠ 0 ∧ (1 : Nat) ≠ 0) from
            fun hc => hc.1 hpa)]
      rw [if_pos (show get_alloc s.mem (q - 8) = 0 ∧ (1 : Nat) ≠ 0 from
            ⟨hpa, by norm_num⟩)]
      rw [hprev, hprev1]
      rw [prod_snd_mk]
      rw [hfoot2]
      rw [hprevm1]
      rw [hfinal]
    refine ⟨(coalesce (extendState s w) b).1, (coalesce (extendState s w) b).2,
      ?_, ?_, ?_, ?_, ?_⟩
    · rw [hret]
    · rw [hco2]
      omega
    · rw [hco2]
      omega
    · rw [hco2]
      omega
    · rw [coalesce_brk, hEbrk]

theorem req_asize_mod16 (size : Nat) : req_asize size % 16 = 0 := by
  rw [req_asize]
  split
  · norm_num
  · rw [align, W_val]
    omega

theorem req_asize_le (size : Nat) : req_asize size ≤ W - 16 := by
  rw [req_asize]
  split
  · rw [W_val]
    omega
  · rw [align, W_val]
    omega

/-- The C6 invariant is not an artifact: it holds for the arena built by
`mm_init` itself (zero-initialized provider memory, base 0, both growth
calls succeeding). -/
theorem inv_holds_after_init :
    ∃ s, mm_init (fun _ => 0) 0 true true = some s ∧ Inv s := by
  refine ⟨_, rfl, ?_⟩
  unfold Inv
  decide

/-! ## Claim theorems -/

/-- Claim C1 (code bug evaluation).  Deallocating the live allocated block A
(payload 32, header word `pack(32,1) = 33`) of `heapAB` leaves the
allocated flag of both its header and its footer at 1, not 0: line 426 of
mm.c reads the raw header word with `get` instead of `get_size`, so
`pack(size, 0)` keeps the old allocated bit.  The size field is unchanged
(32), as the claim states. -/
theorem c1_free_keeps_alloc_bit :
    get_alloc (mm_free heapAB 32).mem (p_to_header 32) = 1 ∧
    get_alloc (mm_free heapAB 32).mem (p_to_footer (mm_free heapAB 32).mem 32) = 1 ∧
    get_size (mm_free heapAB 32).mem (p_to_header 32) = 32 ∧
    (mm_free heapAB 32).mem 24 = 33 ∧ (mm_free heapAB 32).mem 48 = 33 := by
  decide

/-- Claim C2 (code bug evaluation).  In a state with every free list empty,
a `malloc(100)` whose arena growth fails does *not* return NULL: the
source then calls `place(NULL, asize)`, which dereferences
`p_to_header(NULL)` — undefined behaviour, modelled as `MRes.ub`, not the
`MRes.nullret` with unchanged state that the claim requires. -/
theorem c2_growth_failure_not_null : mm_malloc emptyS 100 false 0 = MRes.ub := by
  rfl

/-- Claim C3 (counterexample).  The claim instantiated at `i = 0`,
`size = 32 ∈ [32·2^0, 32·2^1)` demands `search_seg_list 32 = 0`, but the
source returns 1: class 0 is `[0, 32)` and the dyadic classes are shifted
up by one index. -/
theorem c3_counterexample : search_seg_list 32 ≠ 0 := by
  decide

/-- Claim C3 (amended).  The size classes actually implemented by
`search_seg_list`: class 0 covers sizes below 32; class `i` for
`i = 1..12` covers `[32·2^(i-1), 32·2^i)`; class 13 covers everything
at or above 131072. -/
theorem c3_amended :
    (∀ sz : Nat, sz < 32 → search_seg_list sz = 0) ∧
    (∀ i : Nat, 1 ≤ i → i ≤ 12 →
      ∀ sz : Nat, 32 * 2 ^ (i - 1) ≤ sz → sz < 32 * 2 ^ i → search_seg_list sz = i) ∧
    (∀ sz : Nat, 131072 ≤ sz → search_seg_list sz = 13) := by
  refine ⟨fun sz h => ?_, fun i h1 h2 sz h3 h4 => ?_, fun sz h => ?_⟩
  · delta search_seg_list
    rw [if_pos h]
  · interval_cases i <;> norm_num at h3 h4 <;> delta search_seg_list
    case _ => -- i = 1
      rw [if_neg (by omega : ¬ (sz < 32)),
          if_pos (show 32 ≤ sz ∧ sz < 64 by omega)]
    case _ => -- i = 2
      rw [if_neg (by omega : ¬ (sz < 32)),
          if_neg (by omega : ¬ (32 ≤ sz ∧ sz < 64)),
          if_pos (show 64 ≤ sz ∧ sz < 128 by omega)]
    case _ => -- i = 3
      rw [if_neg (by omega : ¬ (sz < 32)),
          if_neg (by omega : ¬ (32 ≤ sz ∧ sz < 64)),
          if_neg (by omega : ¬ (64 ≤ sz ∧ sz < 128)),
          if_pos (show 128 ≤ sz ∧ sz < 256 by omega)]
    case _ => -- i = 4
      rw [if_neg (by omega : ¬ (sz < 32)),
          if_neg (by omega : ¬ (32 ≤ sz ∧ sz < 64)),
          if_neg (by omega : ¬ (64 ≤ sz ∧ sz < 128)),
          if_neg (by omega : ¬ (128 ≤ sz ∧ sz < 256)),
          if_pos (show 256 ≤ sz ∧ sz < 512 by omega)]
    case _ => -- i = 5
      rw [if_neg (by omega : ¬ (sz < 32)),
          if_neg (by omega : ¬ (32 ≤ sz ∧ sz < 64)),
          if_neg (by omega : ¬ (64 ≤ sz ∧ sz < 128)),
          if_neg (by omega : ¬ (128 ≤ sz ∧ sz < 256)),
          if_neg (by omega : ¬ (256 ≤ sz ∧ sz < 512)),
          if_pos (show 512 ≤ sz ∧ sz < 1024 by omega)]
    case _ => -- i = 6
      rw [if_neg (by omega : ¬ (sz < 32)),
          if_neg (by omega : ¬ (32 ≤ sz ∧ sz < 64)),
          if_neg (by omega : ¬ (64 ≤ sz ∧ sz < 128)),
          if_neg (by omega : ¬ (128 ≤ sz ∧ sz < 256)),
          if_neg (by omega : ¬ (256 ≤ sz ∧ sz < 512)),
          if_neg (by omega : ¬ (512 ≤ sz ∧ sz < 1024)),
          if_pos (show 1024 ≤ sz ∧ sz < 2048 by omega)]
    case _ => -- i = 7
      rw [if_neg (by omega : ¬ (sz < 32)),
          if_neg (by omega : ¬ (32 ≤ sz ∧ sz < 64)),
          if_neg (by omega : ¬ (64 ≤ sz ∧ sz < 128)),
          if_neg (by omega : ¬ (128 ≤ sz ∧ sz < 256)),
          if_neg (by omega : ¬ (256 ≤ sz ∧ sz < 512)),
          if_neg (by omega : ¬ (512 ≤ sz ∧ sz < 1024)),
          if_neg (by omega : ¬ (1024 ≤ sz ∧ sz < 2048)),
          if_pos (show 2048 ≤ sz ∧ sz < 4096 by omega)]
    case _ => -- i = 8
      rw [if_neg (by omega : ¬ (sz < 32)),
          if_neg (by omega : ¬ (32 ≤ sz ∧ sz < 64)),
          if_neg (by omega : ¬ (64 ≤ sz ∧ sz < 128)),
          if_neg (by omega : ¬ (128 ≤ sz ∧ sz < 256)),
          if_neg (by omega : ¬ (256 ≤ sz ∧ sz < 512)),
          if_neg (by omega : ¬ (512 ≤ sz ∧ sz < 1024)),
          if_neg (by omega : ¬ (1024 ≤ sz ∧ sz < 2048)),
          if_neg (by omega : ¬ (2048 ≤ sz ∧ sz < 4096)),
          if_pos (show 4096 ≤ sz ∧ sz < 8192 by omega)]
    case _ => -- i = 9
      rw [if_neg (by omega : ¬ (sz < 32)),
          if_neg (by omega : ¬ (32 ≤ sz ∧ sz < 64)),
          if_neg (by omega : ¬ (64 ≤ sz ∧ sz < 128)),
          if_neg (by omega : ¬ (128 ≤ sz ∧ sz < 256)),
          if_neg (by omega : ¬ (256 ≤ sz ∧ sz < 512)),
          if_neg (by omega : ¬ (512 ≤ sz ∧ sz < 1024)),
          if_neg (by omega : ¬ (1024 ≤ sz ∧ sz < 2048)),
          if_neg (by omega : ¬ (2048 ≤ sz ∧ sz < 4096)),
          if_neg (by omega : ¬ (4096 ≤ sz ∧ sz < 8192)),
          if_pos (show 8192 ≤ sz ∧ sz < 16384 by omega)]
    case _ => -- i = 10
      rw [if_neg (by omega : ¬ (sz < 32)),
          if_neg (by omega : ¬ (32 ≤ sz ∧ sz < 64)),
          if_neg (by omega : ¬ (64 ≤ sz ∧ sz < 128)),
          if_neg (by omega : ¬ (128 ≤ sz ∧ sz < 256)),
          if_neg (by omega : ¬ (256 ≤ sz ∧ sz < 512)),
          if_neg (by omega : ¬ (512 ≤ sz ∧ sz < 1024)),
          if_neg (by omega : ¬ (1024 ≤ sz ∧ sz < 2048)),
          if_neg (by omega : ¬ (2048 ≤ sz ∧ sz < 4096)),
          if_neg (by omega : ¬ (4096 ≤ sz ∧ sz < 8192)),
          if_neg (by omega : ¬ (8192 ≤ sz ∧ sz < 16384)),
          if_pos (show 16384 ≤ sz ∧ sz < 32768 by omega)]
    case _ => -- i = 11
      rw [if_neg (by omega : ¬ (sz < 32)),
          if_neg (by omega : ¬ (32 ≤ sz ∧ sz < 64)),
          if_neg (by omega : ¬ (64 ≤ sz ∧ sz < 128)),
          if_neg (by omega : ¬ (128 ≤ sz ∧ sz < 256)),
          if_neg (by omega : ¬ (256 ≤ sz ∧ sz < 512)),
          if_neg (by omega : ¬ (512 ≤ sz ∧ sz < 1024)),
          if_neg (by omega : ¬ (1024 ≤ sz ∧ sz < 2048)),
          if_neg (by omega : ¬ (2048 ≤ sz ∧ sz < 4096)),
          if_neg (by omega : ¬ (4096 ≤ sz ∧ sz < 8192)),
          if_neg (by omega : ¬ (8192 ≤ sz ∧ sz < 16384)),
          if_neg (by omega : ¬ (16384 ≤ sz ∧ sz < 32768)),
          if_pos (show 32768 ≤ sz ∧ sz < 65536 by omega)]
    case _ => -- i = 12
      rw [if_neg (by omega : ¬ (sz < 32)),
          if_neg (by omega : ¬ (32 ≤ sz ∧ sz < 64)),
          if_neg (by omega : ¬ (64 ≤ sz ∧ sz < 128)),
          if_neg (by omega : ¬ (128 ≤ sz ∧ sz < 256)),
          if_neg (by omega : ¬ (256 ≤ sz ∧ sz < 512)),
          if_neg (by omega : ¬ (512 ≤ sz ∧ sz < 1024)),
          if_neg (by omega : ¬ (1024 ≤ sz ∧ sz < 2048)),
          if_neg (by omega : ¬ (2048 ≤ sz ∧ sz < 4096)),
          if_neg (by omega : ¬ (4096 ≤ sz ∧ sz < 8192)),
          if_neg (by omega : ¬ (8192 ≤ sz ∧ sz < 16384)),
          if_neg (by omega : ¬ (16384 ≤ sz ∧ sz < 32768)),
          if_neg (by omega : ¬ (32768 ≤ sz ∧ sz < 65536)),
          if_pos (show 65536 ≤ sz ∧ sz < 131072 by omega)]
  · delta search_seg_list
    rw [if_neg (by omega : ¬ (sz < 32)),
        if_neg (by omega : ¬ (32 ≤ sz ∧ sz < 64)),
        if_neg (by omega : ¬ (64 ≤ sz ∧ sz < 128)),
        if_neg (by omega : ¬ (128 ≤ sz ∧ sz < 256)),
        if_neg (by omega : ¬ (256 ≤ sz ∧ sz < 512)),
        if_neg (by omega : ¬ (512 ≤ sz ∧ sz < 1024)),
        if_neg (by omega : ¬ (1024 ≤ sz ∧ sz < 2048)),
        if_neg (by omega : ¬ (2048 ≤ sz ∧ sz < 4096)),
        if_neg (by omega : ¬ (4096 ≤ sz ∧ sz < 8192)),
        if_neg (by omega : ¬ (8192 ≤ sz ∧ sz < 16384)),
        if_neg (by omega : ¬ (16384 ≤ sz ∧ sz < 32768)),
        if_neg (by omega : ¬ (32768 ≤ sz ∧ sz < 65536)),
        if_neg (by omega : ¬ (65536 ≤ sz ∧ sz < 131072))]

/-- Claim C3 (witness for the amended theorem): size 200 lies in
`[32·2^2, 32·2^3) = [128, 256)` and is classified into class 3. -/
theorem c3_amended_witness :
    (1 : Nat) ≤ 3 ∧ (3 : Nat) ≤ 12 ∧ 32 * 2 ^ (3 - 1) ≤ 200 ∧ 200 < 32 * 2 ^ 3 ∧
    search_seg_list 200 = 3 :=
  ⟨by decide, by decide, by decide, by decide,
    c3_amended.2.1 3 (by decide) (by decide) 200 (by decide) (by decide)⟩

/-- Claim C4 (code bug evaluation).  Free the two physically adjacent live
blocks A (payload 32) and B (payload 64) of `heapAB` in turn.  Afterwards
the two blocks are still separate — both headers still carry size 32
(words 33), `next_bp` of A is B — and *both* sit in the class-1 free list
(head 64, whose next link is 32).  They were not coalesced: `free` left
their allocated bits set (the C1 bug), so `coalesce` ran its
both-neighbours-allocated case for B.  This contradicts coalescing
completeness immediately after a deallocation. -/
theorem c4_adjacent_blocks_not_merged :
    get_size (mm_free (mm_free heapAB 32) 64).mem 24 = 32 ∧
    get_size (mm_free (mm_free heapAB 32) 64).mem 56 = 32 ∧
    next_bp (mm_free (mm_free heapAB 32) 64).mem 32 = 64 ∧
    (mm_free (mm_free heapAB 32) 64).seg 1 = 64 ∧
    next_listbp (mm_free (mm_free heapAB 32) 64).mem 64 = 32 := by
  decide

/-- Claim C5 (code bug evaluation).  A successful `Allocate` can end with a
block whose header and footer disagree.  `malloc(16)` on `heapF` takes
free block F (size 32) with no split; the no-split branch of `place` then
reads the *uninitialized* local `next_block` (modelled by `junk = 80`, a
stale stack value).  Since `heapF.mem (80 - 8 - 8) = 16` has a clear low
bit, `place` writes through `p_to_footer(80) = 80`, overwriting the
footer of the live allocated block G: afterwards G's header (word 33 at
56) says size 32/allocated while G's footer (word 16 at 80) says size
16/free — boundary-tag consistency is broken after the operation. -/
theorem c5_header_footer_mismatch_after_malloc :
    mm_malloc heapF 16 true 80 = MRes.ok 32 (place heapF 32 32 80).1 ∧
    get_size (place heapF 32 32 80).1.mem 56 = 32 ∧
    get_alloc (place heapF 32 32 80).1.mem 56 = 1 ∧
    get_size (place heapF 32 32 80).1.mem 80 = 16 ∧
    get_alloc (place heapF 32 32 80).1.mem 80 = 0 :=
  ⟨rfl, by decide, by decide, by decide, by decide⟩

/-- Claim C9 (code bug evaluation).  In `heapF` the block following F
(payload 32) is G (payload 64), whose footer word sits at 80 and holds 33
before the call.  Placing F without a split (`asize = 32 = csize`) with
the uninitialized `next_block` slot holding the stale value 80 makes
`place` write a third word besides F's own header and footer: G's footer
at 80 is changed from 33 to 16.  The claimed frame property — only the
chosen block's header and footer words are modified, the following
block's footer in particular unchanged — fails. -/
theorem c9_no_split_writes_following_footer :
    next_bp heapF.mem 32 = 64 ∧
    p_to_footer heapF.mem 64 = 80 ∧
    heapF.mem 80 = 33 ∧
    (place heapF 32 32 80).1.mem 80 = 16 ∧
    (place heapF 32 32 80).2 = 32 := by
  decide

/-- Claim C7 (code bug evaluation).  An end-to-end `realloc` on a live
allocated block can fail to preserve the old payload.  On `heapR`,
`realloc(G = 64, 8)` (with growth available) first calls `malloc(8)`,
which places free block F (size 32) without a split; the no-split branch
of `place` then reads the *uninitialized* local `next_block` (the same
undefined behaviour as claims C5/C9; modelled by `junk = 80`, a stale
stack value).  Since G's payload word at 72 holds 0 (caller data, low bit
clear), `place` writes through `p_to_footer(80) = 64` — zeroing the old
block G's first payload word *before* the `memmove` runs.  The copy then
propagates the clobbered word: `realloc` succeeds and returns payload 32,
but its first word is 0, not the pre-call 123, even though byte index 0
lies inside the claimed preserved prefix `min(8, oldCapacity = 16) = 8`. -/
theorem c7_realloc_loses_old_bytes :
    heapR.mem 64 = 123 ∧
    8 ≤ min 8 (get_size heapR.mem (p_to_header 64) - 16) ∧
    mm_realloc heapR 64 8 true 80 =
      MRes.ok 32 (mm_free { (place heapR 32 32 80).1 with
        mem := movewords (place heapR 32 32 80).1.mem 32 64 1 } 64) ∧
    (mm_free { (place heapR 32 32 80).1 with
        mem := movewords (place heapR 32 32 80).1.mem 32 64 1 } 64).mem 32 = 0 :=
  ⟨by decide, by decide, rfl, by decide⟩

/-- Claim C10 (confirmed).  Boundary-tag codec round-trip: for every size
that is a multiple of 16 and representable in 64 bits and every flag in
{0, 1}, decoding the word `pack(size, flag)` stored at any address
recovers both components via `get_size` and `get_alloc`. -/
theorem c10_codec_roundtrip (m : Mem) (a size flag : Nat) (h16 : size % 16 = 0)
    (hW : size < W) (hf : flag = 0 ∨ flag = 1) :
    get_size (put m a (pack size flag)) a = size ∧
    get_alloc (put m a (pack size flag)) a = flag := by
  have hf1 : flag ≤ 1 := by rcases hf with rfl | rfl <;> norm_num
  constructor
  · show size_of_word (get (put m a (pack size flag)) a) = size
    rw [get_put_same]
    exact pack_get_size size flag h16 hW hf1
  · show alloc_of_word (get (put m a (pack size flag)) a) = flag
    rw [get_put_same]
    exact pack_get_alloc size flag h16 hf1

/-- Claim C10 (witness): size 4096, flag 1 round-trips through a store at
address 24 in the zero memory. -/
theorem c10_witness :
    get_size (put (fun _ => 0) 24 (pack 4096 1)) 24 = 4096 ∧
    get_alloc (put (fun _ => 0) 24 (pack 4096 1)) 24 = 1 :=
  c10_codec_roundtrip (fun _ => 0) 24 4096 1 (by decide) (by rw [W_val]; decide)
    (Or.inr rfl)

/-- Claim C8 (confirmed).  For every state, request size and growth
disposition, `malloc`'s behaviour factors exactly through the spec's
search policy `spec_search`: a first fit among the first 32 nodes of
class `classOf(asize)`'s list is placed and returned; failing that, the
head of the first non-empty higher class is placed and returned; only if
those are all empty is growth of `max(asize, 4096)` bytes requested, with
the grown (coalesced) block then placed. -/
theorem c8_search_policy (s : AState) (size : Nat) (ok : Bool) (junk : Nat)
    (h0 : size ≠ 0) :
    mm_malloc s size ok junk =
      (match spec_search s (req_asize size) with
       | .hit p => MRes.ok p (place s p (req_asize size) junk).1
       | .escalate p => MRes.ok p (place s p (req_asize size) junk).1
       | .grow bytes =>
         match extend_heap s bytes ok with
         | none => MRes.ub
         | some (s1, bp1) => MRes.ok bp1 (place s1 bp1 (req_asize size) junk).1) := by
  have hk : search_seg_list (req_asize size) ≤ 13 := search_seg_list_le (req_asize size)
  simp only [mm_malloc, if_neg h0]
  rw [spec_search]
  rw [if_pos (show search_seg_list (req_asize size) ≠ 14 by omega)]
  rw [scan_blocks_eq_find]
  cases hscan : (listNodes s.mem (s.seg (search_seg_list (req_asize size))) 32).find?
      (fun p => decide (req_asize size ≤ get_size s.mem (p_to_header p))) with
  | some p => rfl
  | none =>
    have hfh := find_head_eq_range s.seg 14 (search_seg_list (req_asize size) + 1) (by omega)
    have h13 : 14 - (search_seg_list (req_asize size) + 1)
        = 13 - search_seg_list (req_asize size) := by
      omega
    rw [h13] at hfh
    rw [hfh]
    cases hesc : (List.range' (search_seg_list (req_asize size) + 1)
        (13 - search_seg_list (req_asize size))).find? (fun j => s.seg j != 0) with
    | some j =>
      have hj := List.find?_some hesc
      have hj0 : s.seg j ≠ 0 := by simpa using hj
      rw [if_pos (show (Option.some j).elim 0 s.seg ≠ 0 from hj0)]
      rfl
    | none =>
      rw [if_neg (show ¬ ((Option.none).elim 0 s.seg ≠ 0) by simp)]

/-- Claim C8 (witness): the policy equation instantiated on the concrete
arena `heapF` with request size 5. -/
theorem c8_witness :
    mm_malloc heapF 5 true 0 =
      (match spec_search heapF (req_asize 5) with
       | .hit p => MRes.ok p (place heapF p (req_asize 5) 0).1
       | .escalate p => MRes.ok p (place heapF p (req_asize 5) 0).1
       | .grow bytes =>
         match extend_heap heapF bytes true with
         | none => MRes.ub
         | some (s1, bp1) => MRes.ok bp1 (place s1 bp1 (req_asize 5) 0).1) :=
  c8_search_policy heapF 5 true 0 (by decide)

/-- Claim C6 (confirmed).  On any well-formed allocator state (`Inv`,
which holds for every arena the allocator builds), every non-null payload
pointer returned by a successful `malloc` is a multiple of 16 bytes and
lies within the arena's current bounds (at or past the first possible
payload address 32 relative to the arena base, and strictly below the
break).  This covers all three paths: a scan hit in the request's own
class, escalation to a higher class's head, and arena growth followed by
coalescing (where the result may be the merged predecessor block). -/
theorem c6_malloc_aligned_in_bounds (s : AState) (size : Nat) (ok : Bool)
    (junk bp : Nat) (s' : AState) (hInv : Inv s)
    (h : mm_malloc s size ok junk = MRes.ok bp s') :
    bp % 16 = 0 ∧ 32 ≤ bp ∧ bp < s'.brk := by
  obtain ⟨hb16, hb48, hnodes, hsz32, hszb, hlinks⟩ := id hInv
  by_cases h0 : size = 0
  · rw [mm_malloc, if_pos h0] at h
    exact MRes.noConfusion h
  · simp only [mm_malloc, if_neg h0] at h
    have hk13 : search_seg_list (req_asize size) ≤ 13 := search_seg_list_le _
    rw [if_pos (show search_seg_list (req_asize size) ≠ 14 by omega)] at h
    cases hscan : scan_blocks s.mem (req_asize size)
        (s.seg (search_seg_list (req_asize size))) 32 with
    | some p =>
      rw [hscan] at h
      injection h with h1 h2
      rw [scan_blocks_eq_find] at hscan
      have hmem := List.mem_of_find?_eq_some hscan
      obtain ⟨hp16, hp32, hpb⟩ :=
        hnodes (search_seg_list (req_asize size)) (by omega) p hmem
      have hbrk : s'.brk = s.brk := by
        rw [← h2, place_brk]
      refine ⟨by omega, by omega, ?_⟩
      rw [hbrk]
      omega
    | none =>
      rw [hscan] at h
      by_cases hfh0 : find_head s.seg (search_seg_list (req_asize size) + 1) 14 ≠ 0
      · rw [if_pos hfh0] at h
        injection h with h1 h2
        obtain ⟨j, hj14, hseg⟩ := find_head_mem s.seg 14
          (search_seg_list (req_asize size) + 1) hfh0
        have hmem : find_head s.seg (search_seg_list (req_asize size) + 1) 14
            ∈ listNodes s.mem (s.seg j) 32 := by
          have hunf : listNodes s.mem (s.seg j) 32 = if s.seg j = 0 then []
              else s.seg j :: listNodes s.mem (next_listbp s.mem (s.seg j)) 31 := rfl
          rw [hunf, if_neg (by rw [hseg]; exact hfh0)]
          rw [hseg]
          exact List.mem_cons_self _ _
        obtain ⟨hp16, hp32, hpb⟩ := hnodes j hj14 _ hmem
        have hbrk : s'.brk = s.brk := by
          rw [← h2, place_brk]
        refine ⟨by omega, by omega, ?_⟩
        rw [hbrk]
        omega
      · rw [if_neg hfh0] at h
        cases ok with
        | false =>
          have hnone : extend_heap s (max (req_asize size) 4096) false = none := rfl
          rw [hnone] at h
          exact MRes.noConfusion h
        | true =>
          have hq16 : (max (req_asize size) 4096) % 16 = 0 := by
            have := req_asize_mod16 size
            omega
          have hqle : (max (req_asize size) 4096) ≤ W - 16 := by
            have h1 := req_asize_le size
            have hWv := W_val
            omega
          obtain ⟨st, bp1, hext, hbp1a, hbp1b, hbp1c, hbrk1⟩ :=
            extend_heap_ok s (max (req_asize size) 4096) hInv
              (le_max_right _ _) hq16 hqle
          rw [hext] at h
          injection h with h1 h2
          have hbrk : s'.brk = s.brk + max (req_asize size) 4096 := by
            rw [← h2, place_brk, hbrk1]
          refine ⟨by omega, by omega, ?_⟩
          rw [hbrk]
          have : 4096 ≤ max (req_asize size) 4096 := le_max_right _ _
          omega

/-- Claim C6 (witness): on the concrete arena `heapF`, `malloc(16)`
succeeds and returns payload pointer 32, which is 16-byte aligned and
inside the arena. -/
theorem c6_witness :
    32 % 16 = 0 ∧ 32 ≤ 32 ∧ 32 < ((place heapF 32 32 0).1).brk :=
  c6_malloc_aligned_in_bounds heapF 16 true 0 32 (place heapF 32 32 0).1
    (by unfold Inv; decide) rfl

end MM
